import Mathlib

/-!
Verification development for the pulse-survey bot core: a shallow Lean
embedding of the question parser (`lib/parse-questions.js`), the results
aggregation and CSV export (`lib/blocks.js`), and the blob-store layer
(`netlify/functions/lib/store.js`), together with theorems checking the
specification claims against these embeddings.

Modelling conventions:
* JavaScript numbers on the embedded code paths stay within exact decimal
  arithmetic, so they are embedded as rationals (`ℚ`) with explicit
  rounding functions mirroring `Math.round`.
* JS builtins used by the code (`parseFloat`, `Math.round`, stable
  `Array.prototype.sort`, `Object.entries` key enumeration order,
  `String.prototype.trim/split/includes/replace`) are embedded as explicit
  Lean functions placed next to the code that uses them.
* The SHA-256 primitive is abstracted as an explicit function argument
  `sha256 : String → String`; every embedded definition applies it to
  exactly the string the source code hashes.
* Async storage calls are embedded either as explicit state passing over a
  `StoreState` (for sequential executions) or as `Except`-valued reads
  (for the fault-propagation model), matching the two ways the source is
  exercised by the claims.
-/

namespace Pulse

/-- Question type tags produced by `parseQuestions`. -/
inductive QType where
  | scale
  | multiSelect
  | freeText
  deriving DecidableEq, Repr

/-- A parsed question object (`lib/parse-questions.js`).  The JS objects
for `scale` and `free-text` questions carry no `options` field, embedded
here as `none`. -/
structure Question where
  label : String
  type : QType
  options : Option (List String)
  deriving DecidableEq, Repr

/-- Survey settings flags.  The source reads them through optional
chaining (`survey.settings?.shareFreetext`); the embedding assumes the
`settings` object is present, as `createSurvey` always stores one. -/
structure Settings where
  showResults : Bool
  shareFreetext : Bool
  deriving DecidableEq, Repr

/-- A stored Survey record (`store.js` / `createSurvey`). -/
structure Survey where
  id : String
  title : String
  questions : List Question
  createdBy : String
  status : String
  responseCount : Nat
  settings : Settings
  createdAt : String
  deriving DecidableEq, Repr

/-- A stored answer value.  Scale answers are stored as decimal strings
(the Slack select value), multi-select answers as arrays of option
strings, free-text answers as strings; a skipped question stores nothing
(JS `undefined`), embedded as `absent`. -/
inductive Ans where
  | absent
  | str (s : String)
  | arr (l : List String)
  deriving DecidableEq, Repr

/-- A Response object maps the key `q_<i>` to an answer value; the
embedding indexes directly by the question index `i`. -/
def Resp := Nat → Ans

/-- Viewer context passed to `buildResultsBlocks`. -/
structure ViewerCtx where
  isAdmin : Bool
  isShare : Bool
  deriving DecidableEq, Repr

/-- A Block Kit block, reduced to the data the claims are about: section
blocks carry their mrkdwn text, dividers carry nothing. -/
inductive Block where
  | section (text : String)
  | divider
  deriving DecidableEq, Repr

/-! ### JS string builtins used by the parser -/

/-- Whitespace test backing the `\s` regex class and the JS `trim`;
embedded as Lean `Char.isWhitespace` (agreeing with JS on the characters
that occur on these code paths: space, tab, CR, LF). -/
def jsWs (c : Char) : Bool := c.isWhitespace

/-- Embedding of `String.prototype.split` with a single-character
separator: `"".split(sep)` is `[""]`, separators at the ends produce
empty pieces. -/
def splitOnChar (sep : Char) (l : List Char) : List (List Char) :=
  l.foldr (fun c acc =>
    match acc with
    | [] => [[]]
    | a :: rest => if c = sep then [] :: a :: rest else (c :: a) :: rest) [[]]

/-- Embedding of `String.prototype.trim`: strip leading and trailing
whitespace. -/
def jsTrim (s : String) : String :=
  String.mk (((s.data.dropWhile jsWs).reverse.dropWhile jsWs).reverse)

/-- Non-blank trimmed lines: `.split("\n").map(l => l.trim()).filter(Boolean)`
(a string is truthy iff nonempty). -/
def nonBlankTrimmedLines (s : String) : List String :=
  ((splitOnChar '\n' s.data).map (fun cs => jsTrim (String.mk cs))).filter (fun l => l ≠ "")

/-! ### Question parser (`lib/parse-questions.js`) -/

/-- Default options substituted when a multi-select question has no
parsed option line: `["Option A", "Option B", "Option C"]`. -/
def defaultOptions : List String := ["Option A", "Option B", "Option C"]

/-- Decimal digit-string value, backing `parseInt` on the `\d+` capture. -/
def digitsToNat (ds : List Char) : Nat :=
  ds.foldl (fun acc c => acc * 10 + (c.toNat - '0'.toNat)) 0

/-- Embedding of `line.match(/^Q(\d+)\s*:\s*(.+)$/i)` followed by
`parseInt(match[1])` and `match[2].split(",").map(o => o.trim())`.
The input is already a trimmed single line (no newline characters), so
`.` matching and the `$` anchor reduce to taking the rest of the line;
`(.+)` requires the capture to be nonempty. -/
def parseOptLine (line : String) : Option (Nat × List String) :=
  match line.data with
  | [] => none
  | c :: rest =>
    if c = 'Q' ∨ c = 'q' then
      let ds := rest.takeWhile Char.isDigit
      let r1 := rest.dropWhile Char.isDigit
      if ds.isEmpty then none
      else
        match r1.dropWhile jsWs with
        | ':' :: r3 =>
          let r4 := r3.dropWhile jsWs
          if r4.isEmpty then none
          else some (digitsToNat ds, (splitOnChar ',' r4).map (fun cs => jsTrim (String.mk cs)))
        | _ => none
    else none

/-- The `optionsMap` object built by `parseQuestions`: option lines are
folded left to right, a later line for the same question number
overwriting the earlier entry. -/
def optionsMap (rawOptions : String) : Nat → Option (List String) :=
  (nonBlankTrimmedLines rawOptions).foldl
    (fun m line =>
      match parseOptLine line with
      | some e => fun k => if k = e.1 then some e.2 else m k
      | none => m)
    (fun _ => none)

/-- Successfully parsed option lines, in file order. -/
def parsedOptionEntries (rawOptions : String) : List (Nat × List String) :=
  (nonBlankTrimmedLines rawOptions).filterMap parseOptLine

/-- Case-insensitive literal prefix match, returning the remainder;
backs the `/i` regex flag (the markers only contain ASCII). -/
def dropPrefixCI : List Char → List Char → Option (List Char)
  | [], l => some l
  | _ :: _, [] => none
  | p :: ps, c :: cs => if c.toLower = p.toLower then dropPrefixCI ps cs else none

/-- Embedding of `line.replace(/\s*marker/i, "")` for a literal marker
starting with a non-whitespace character: remove the leftmost occurrence
of the marker together with the maximal whitespace run immediately before
it. -/
def removeWsMarkerCI (marker : List Char) : List Char → List Char
  | [] => []
  | c :: cs =>
    match dropPrefixCI marker ((c :: cs).dropWhile jsWs) with
    | some rest => rest
    | none => c :: removeWsMarkerCI marker cs

/-- Embedding of `/marker/i.test(line)` for a literal marker. -/
def containsMarkerCI (marker : List Char) : List Char → Bool
  | [] => false
  | c :: cs => (dropPrefixCI marker (c :: cs)).isSome || containsMarkerCI marker cs

/-- Character data of the `(multi-select)` marker. -/
def msMarker : List Char := "(multi-select)".data

/-- Character data of the `(free-text)` marker. -/
def ftMarker : List Char := "(free-text)".data

/-- Embedding of `parseQuestions(rawQuestions, rawOptions)`.  Note the
source guards the option parsing with `if (rawOptions)`; an empty
`rawOptions` produces no lines, so folding over no lines models the
falsy-guard case as well. -/
def parseQuestions (rawQuestions rawOptions : String) : List Question :=
  let omap := optionsMap rawOptions
  (nonBlankTrimmedLines rawQuestions).enum.map (fun p =>
    let qNum := p.1 + 1
    let line := p.2
    if containsMarkerCI msMarker line.data then
      { label := jsTrim (String.mk (removeWsMarkerCI msMarker line.data))
        type := QType.multiSelect
        options := some ((omap qNum).getD defaultOptions) }
    else if containsMarkerCI ftMarker line.data then
      { label := jsTrim (String.mk (removeWsMarkerCI ftMarker line.data))
        type := QType.freeText
        options := none }
    else
      { label := jsTrim line, type := QType.scale, options := none })

/-! ### JS numeric builtins used by the aggregator -/

/-- Fractional value of the digits following the decimal point. -/
def fracVal (ds : List Char) : ℚ :=
  ds.foldr (fun c acc => (((c.toNat - '0'.toNat : Nat) : ℚ) + acc) / 10) 0

/-- Embedding of the `parseFloat` builtin on the grammar fragment
`ws* [+-]? digits* [. digits*] [eE [+-]? digits]` (with at least one
digit in the mantissa); `none` models `NaN`.  The special forms
`Infinity` and huge literals that overflow a double do not occur on the
embedded code paths and are not modelled. -/
def jsParseFloat (s : String) : Option ℚ :=
  let cs := s.data.dropWhile jsWs
  let sgncs : ℚ × List Char :=
    match cs with
    | '+' :: r => (1, r)
    | '-' :: r => (-1, r)
    | _ => (1, cs)
  let cs1 := sgncs.2
  let ip := cs1.takeWhile Char.isDigit
  let r2 := cs1.dropWhile Char.isDigit
  let fpr3 : List Char × List Char :=
    match r2 with
    | '.' :: r => (r.takeWhile Char.isDigit, r.dropWhile Char.isDigit)
    | _ => ([], r2)
  if ip.isEmpty ∧ fpr3.1.isEmpty then none
  else
    let mant : ℚ := (digitsToNat ip : ℚ) + fracVal fpr3.1
    let ex : ℤ :=
      match fpr3.2 with
      | 'e' :: r | 'E' :: r =>
        match r with
        | '+' :: rr => if (rr.takeWhile Char.isDigit).isEmpty then 0
            else (digitsToNat (rr.takeWhile Char.isDigit) : ℤ)
        | '-' :: rr => if (rr.takeWhile Char.isDigit).isEmpty then 0
            else -(digitsToNat (rr.takeWhile Char.isDigit) : ℤ)
        | _ => if (r.takeWhile Char.isDigit).isEmpty then 0
            else (digitsToNat (r.takeWhile Char.isDigit) : ℤ)
      | _ => 0
    some (sgncs.1 * mant * (10 : ℚ) ^ ex)

/-- Embedding of `Math.round`: round half toward positive infinity. -/
def jsMathRound (q : ℚ) : ℤ := ⌊q + 1 / 2⌋

/-- String of a character repeated `n` times (`"c".repeat(n)`; the JS
call throws on a negative count, which cannot occur on the embedded
paths, so the count is a `Nat`). -/
def repeatChar (c : Char) (n : Nat) : String := String.mk (List.replicate n c)

/-- Rendering of a JS number that is an integer multiple of 1/10, given
as its value times ten (used for the rounded scale mean). -/
def tenthsToString (z : ℤ) : String :=
  if z % 10 = 0 then toString (z / 10)
  else if z < 0 then "-" ++ toString (-z / 10) ++ "." ++ toString (-z % 10)
  else toString (z / 10) ++ "." ++ toString (z % 10)

/-! ### Results aggregation (`buildResultsBlocks` in `lib/blocks.js`) -/

/-- The value `parseFloat(r[key])` for a stored answer: `undefined`
gives `NaN`; an array is first converted to a string by joining with
commas. -/
def scaleParsedAns (a : Ans) : Option ℚ :=
  match a with
  | .absent => none
  | .str s => jsParseFloat s
  | .arr l => jsParseFloat (String.intercalate "," l)

/-- JS truthiness of a number-or-NaN: `NaN` and `0` (also `-0`) are
falsy. -/
def jsNumTruthy : Option ℚ → Bool
  | none => false
  | some q => q ≠ 0

/-- The `values` list of the scale branch:
`responses.map(r => parseFloat(r[key])).filter(Boolean)`. -/
def scaleValues (responses : List Resp) (i : Nat) : List ℚ :=
  ((responses.map (fun r => scaleParsedAns (r i))).filter jsNumTruthy).filterMap id

/-- Arithmetic mean (`values.reduce((a,b) => a+b, 0) / values.length`).
JS yields `NaN` on an empty list where ℚ division yields 0; no claim
depends on the empty case. -/
def scaleMean (vs : List ℚ) : ℚ := vs.sum / (vs.length : ℚ)

/-- The rounded mean: `Math.round(avg * 10) / 10`. -/
def scaleRounded (vs : List ℚ) : ℚ := ((jsMathRound (scaleMean vs * 10) : ℤ) : ℚ) / 10

/-- Five-bucket distribution: for `n = 1..5` the count of values exactly
equal to `n`. -/
def scaleDist (vs : List ℚ) : List Nat :=
  [1, 2, 3, 4, 5].map (fun n => (vs.filter (fun v => v = ((n : Nat) : ℚ))).length)

/-- Scale section text. -/
def scaleBlockText (q : Question) (vs : List ℚ) : String :=
  let avg := scaleMean vs
  let filled := (jsMathRound avg).toNat
  let bar := repeatChar '█' filled ++ repeatChar '░' (5 - filled)
  "*" ++ q.label ++ "*\n" ++ bar ++ " *" ++ tenthsToString (jsMathRound (avg * 10)) ++
    "/5* (" ++ toString vs.length ++ " responses)\n" ++
    String.intercalate " · "
      ((scaleDist vs).enum.map (fun p => toString (p.1 + 1) ++ "★: " ++ toString p.2))

/-- Selections contributed by one stored answer to
`responses.flatMap(r => r[key] || [])`: an array is spread, a truthy
non-array value is inserted as a single element, a falsy value
contributes the empty array. -/
def ansSelections : Ans → List String
  | .absent => []
  | .str s => if s = "" then [] else [s]
  | .arr l => l

/-- All selected options across all responses, in response order. -/
def allSelections (responses : List Resp) (i : Nat) : List String :=
  responses.flatMap (fun r => ansSelections (r i))

/-- The `counts` object: fold the selections left to right, bumping the
count of an existing key in place (JS objects keep the original property
creation position on update) and appending a new key at the end. -/
def bump : List (String × Nat) → String → List (String × Nat)
  | [], opt => [(opt, 1)]
  | e :: rest, opt => if e.1 = opt then (e.1, e.2 + 1) :: rest else e :: bump rest opt

/-- Association list of option counts in property creation order. -/
def buildCounts (sels : List String) : List (String × Nat) := sels.foldl bump []

/-- The looked-up count of a key in the counts object
(`counts[opt] || 0`), used to state correctness of `buildCounts`. -/
def countVal (acc : List (String × Nat)) (k : String) : Nat :=
  ((acc.find? (fun e => e.1 == k)).map Prod.snd).getD 0

/-- Canonical array-index test for a JS object property key: a string of
decimal digits with no leading zero (except `"0"`) whose value is below
2^32 - 1. -/
def jsArrayIndex (s : String) : Option Nat :=
  match s.data with
  | [] => none
  | c :: cs =>
    if (c :: cs).all Char.isDigit ∧ (c ≠ '0' ∨ cs = []) then
      let n := digitsToNat (c :: cs)
      if n < 2 ^ 32 - 1 then some n else none
    else none

/-- Insertion into a list sorted ascending by the numeric key. -/
def insertAscNat (x : Nat × String × Nat) :
    List (Nat × String × Nat) → List (Nat × String × Nat)
  | [] => [x]
  | y :: ys => if x.1 < y.1 then x :: y :: ys else y :: insertAscNat x ys

/-- Insertion sort ascending by the numeric key (keys are distinct, so
stability is irrelevant here). -/
def sortAscNat : List (Nat × String × Nat) → List (Nat × String × Nat)
  | [] => []
  | x :: xs => insertAscNat x (sortAscNat xs)

/-- Embedding of `Object.entries(counts)`: own string keys enumerate
with the canonical array-index keys first in ascending numeric order,
followed by the remaining keys in property creation order. -/
def jsObjectEntries (assoc : List (String × Nat)) : List (String × Nat) :=
  let idx := assoc.filterMap (fun e => (jsArrayIndex e.1).map (fun n => (n, e)))
  (sortAscNat idx).map (fun t => t.2) ++ assoc.filter (fun e => (jsArrayIndex e.1).isNone)

/-- Stable insertion step for descending count order: the inserted
element stays before every strictly smaller count and after every count
greater than or equal to its own. -/
def insertDescCount (x : String × Nat) : List (String × Nat) → List (String × Nat)
  | [] => [x]
  | y :: ys => if y.2 ≤ x.2 then x :: y :: ys else y :: insertDescCount x ys

/-- Embedding of `.sort((a, b) => b[1] - a[1])`: `Array.prototype.sort`
is stable, and a stable sort for a total preorder has a unique result,
so foldr insertion sort is a faithful model. -/
def sortDescCount : List (String × Nat) → List (String × Nat)
  | [] => []
  | x :: xs => insertDescCount x (sortDescCount xs)

/-- The sorted entry list of the multi-select branch. -/
def multiSelectEntries (responses : List Resp) (i : Nat) : List (String × Nat) :=
  sortDescCount (jsObjectEntries (buildCounts (allSelections responses i)))

/-- Percentage of respondents: `Math.round((count / total) * 100)`. -/
def pctOf (count total : Nat) : ℤ := jsMathRound (((count : ℚ) / (total : ℚ)) * 100)

/-- One rendered line of the multi-select branch. -/
def msLine (total : Nat) (e : String × Nat) : String :=
  let pct := pctOf e.2 total
  let barLen := (jsMathRound ((pct : ℚ) / 10)).toNat
  e.1 ++ ": " ++ repeatChar '█' barLen ++ repeatChar '░' (10 - barLen) ++ " " ++
    toString pct ++ "% (" ++ toString e.2 ++ ")"

/-- Multi-select section text. -/
def msBlockText (q : Question) (responses : List Resp) (i : Nat) : String :=
  "*" ++ q.label ++ "*\n" ++
    String.intercalate "\n" ((multiSelectEntries responses i).map (msLine responses.length))

/-- JS truthiness of a stored answer value (arrays are always truthy,
the empty string and `undefined` are falsy). -/
def jsTruthyAns : Ans → Bool
  | .absent => false
  | .str s => s ≠ ""
  | .arr _ => true

/-- The `texts` list of the free-text branch:
`responses.map(r => r[key]).filter(Boolean)`. -/
def freeTexts (responses : List Resp) (i : Nat) : List Ans :=
  (responses.map (fun r => r i)).filter jsTruthyAns

/-- Template-literal stringification of a stored answer. -/
def ansToString : Ans → String
  | .absent => "undefined"
  | .str s => s
  | .arr l => String.intercalate "," l

/-- Free-text section text, including the visibility policy
`isAdmin || (!isShare && survey.settings?.shareFreetext)`. -/
def ftBlockText (q : Question) (survey : Survey) (responses : List Resp)
    (ctx : ViewerCtx) (i : Nat) : String :=
  let texts := freeTexts responses i
  let showFreeText := ctx.isAdmin || (!ctx.isShare && survey.settings.shareFreetext)
  if showFreeText && decide (0 < texts.length) then
    "*" ++ q.label ++ "* (" ++ toString texts.length ++ " responses)\n" ++
      String.intercalate "\n" (texts.map (fun t => "> _" ++ ansToString t ++ "_"))
  else if ctx.isShare then
    "*" ++ q.label ++ "*\n_" ++ toString texts.length ++
      " free-text responses (visible to survey creator only)_"
  else
    "*" ++ q.label ++ "*\n_" ++ toString texts.length ++
      " responses · Free-text answers are only visible to the survey creator_"

/-- The single section block pushed for question `i`. -/
def questionBlock (survey : Survey) (responses : List Resp) (ctx : ViewerCtx)
    (i : Nat) (q : Question) : Block :=
  match q.type with
  | .scale => .section (scaleBlockText q (scaleValues responses i))
  | .multiSelect => .section (msBlockText q responses i)
  | .freeText => .section (ftBlockText q survey responses ctx i)

/-- The `survey.questions.forEach((q, i) => ...)` loop: one section and
one divider per question. -/
def questionBlocks (survey : Survey) (responses : List Resp) (ctx : ViewerCtx) :
    Nat → List Question → List Block
  | _, [] => []
  | i, q :: qs =>
    questionBlock survey responses ctx i q :: Block.divider ::
      questionBlocks survey responses ctx (i + 1) qs

/-- Header section text of the results message. -/
def headerText (survey : Survey) (responses : List Resp) : String :=
  ":bar_chart: *Results: " ++ survey.title ++ "*\n" ++ toString responses.length ++
    " response" ++ (if responses.length = 1 then "" else "s") ++ " · Status: " ++ survey.status

/-- Embedding of `buildResultsBlocks(survey, responses, {isAdmin, isShare})`. -/
def buildResultsBlocks (survey : Survey) (responses : List Resp) (ctx : ViewerCtx) :
    List Block :=
  if responses.length = 0 then
    [.section (headerText survey responses), .divider, .section "_No responses yet._"]
  else
    .section (headerText survey responses) :: .divider ::
      questionBlocks survey responses ctx 0 survey.questions

/-! ### CSV export (`buildCsvExport` in `lib/blocks.js`) -/

/-- Embedding of `val.includes(c)` for a single-character needle. -/
def jsIncludesChar (s : String) (c : Char) : Bool := s.data.contains c

/-- Embedding of `val.replace(/"/g, double-quote twice)`: every
double-quote character is doubled. -/
def jsEscapeQuotes (s : String) : String :=
  String.mk (s.data.flatMap (fun c => if c = '"' then ['"', '"'] else [c]))

/-- One CSV field as the source renders it. -/
def csvField (a : Ans) : String :=
  match a with
  | .arr l => "\"" ++ String.intercalate ", " l ++ "\""
  | .str s =>
    if jsIncludesChar s ',' || jsIncludesChar s '"' then "\"" ++ jsEscapeQuotes s ++ "\""
    else s
  | .absent => ""

/-- Embedding of `buildCsvExport(survey, responses)`. -/
def buildCsvExport (survey : Survey) (responses : List Resp) : String :=
  let headers := String.intercalate "," (survey.questions.map (fun q => q.label))
  let rows := responses.map (fun r =>
    String.intercalate "," (survey.questions.enum.map (fun p => csvField (r p.1))))
  String.intercalate "\n" (headers :: rows)

/-- Modelled from the spec (§4.6 wording): array answers joined with a
comma-space and the whole field quoted; string values containing a comma
or a double-quote quoted with internal double-quotes doubled; missing
answers rendered as the empty string; everything else unquoted. -/
def csvFieldSpec (a : Ans) : String :=
  match a with
  | .absent => ""
  | .arr l => "\"" ++ String.intercalate ", " l ++ "\""
  | .str s =>
    if (',' ∈ s.data) ∨ ('"' ∈ s.data) then
      "\"" ++ String.mk (s.data.foldr
        (fun c acc => if c = '"' then '"' :: '"' :: acc else c :: acc) []) ++ "\""
    else s

/-- Modelled from the spec (§4.6 wording): a header row of the question
labels in order, then one row per response in order, rows joined with a
newline and no trailing newline. -/
def csvExportSpec (survey : Survey) (responses : List Resp) : String :=
  String.intercalate "\n"
    (String.intercalate "," (survey.questions.map Question.label) ::
      responses.map (fun r =>
        String.intercalate ","
          ((List.range survey.questions.length).map (fun i => csvFieldSpec (r i)))))

/-! ### Anonymous tracking (`store.js`: `hasUserResponded` / `markUserResponded`)

The SHA-256 builtin is abstracted as `sha256 : String → String`; both
functions hash exactly the template literal `surveyId ++ ":" ++ userId`.
The tracking set argument is the JSON list stored under the survey id
(`(await store.get(surveyId, ...)) || []`); `markUserResponded` returns
the resulting stored list together with a flag recording whether
`setJSON` was called. -/

/-- The digest both tracking functions compute. -/
def dedupDigest (sha256 : String → String) (surveyId userId : String) : String :=
  sha256 (surveyId ++ ":" ++ userId)

/-- Embedding of `hasUserResponded(surveyId, userId)` over the stored
digest list. -/
def hasUserResponded (sha256 : String → String) (surveyId userId : String)
    (set : List String) : Bool :=
  set.contains (dedupDigest sha256 surveyId userId)

/-- Embedding of `markUserResponded(surveyId, userId)` over the stored
digest list: append the digest and persist only when it is absent.  The
second component records whether a write (`setJSON`) happened. -/
def markUserResponded (sha256 : String → String) (surveyId userId : String)
    (set : List String) : List String × Bool :=
  let hash := dedupDigest sha256 surveyId userId
  if set.contains hash then (set, false) else (set ++ [hash], true)

/-- The tracking list produced by marking a sequence of users of one
survey, starting from the empty stored list. -/
def markedSet (sha256 : String → String) (surveyId : String)
    (users : List String) : List String :=
  users.foldl (fun s u => (markUserResponded sha256 surveyId u s).1) []

/-! ### Response and survey storage (`store.js`: `addResponse` / `getResponses`)

Sequential executions are embedded as explicit state passing over the
two blob namespaces the claims touch (the tracking namespace is handled
separately above). -/

/-- The survey and response blob namespaces, as maps from key to stored
JSON value. -/
structure StoreState where
  surveys : String → Option Survey
  responses : String → Option (List Resp)

/-- Embedding of `getResponses(surveyId)`:
`(await store.get(surveyId, ...)) || []`. -/
def getResponses (st : StoreState) (surveyId : String) : List Resp :=
  (st.responses surveyId).getD []

/-- Embedding of `addResponse(surveyId, answers)`: read the stored list
(absent means empty), append, persist, then read the survey record and,
only if it exists, persist it with `responseCount` set to the new
length; return the new length. -/
def addResponse (st : StoreState) (surveyId : String) (answers : Resp) :
    StoreState × Nat :=
  let existing := (st.responses surveyId).getD []
  let updated := existing ++ [answers]
  let st1 : StoreState :=
    { st with responses := fun k => if k = surveyId then some updated else st.responses k }
  match st1.surveys surveyId with
  | some survey =>
    let survey1 := { survey with responseCount := updated.length }
    ({ st1 with surveys := fun k => if k = surveyId then some survey1 else st1.surveys k },
      updated.length)
  | none => (st1, updated.length)

/-- Sequential run of `addResponse` over a list of submissions,
collecting the returned counts in order. -/
def addResponseRun (st : StoreState) (surveyId : String) :
    List Resp → StoreState × List Nat
  | [] => (st, [])
  | a :: rest =>
    let step := addResponse st surveyId a
    let tail := addResponseRun step.1 surveyId rest
    (tail.1, step.2 :: tail.2)

/-! ### Fault propagation (`store.js` reads + the slash-command handler)

A storage read that can fault is embedded as an `Except`-valued input:
`.ok v` is a fulfilled `store.get` (with `none` for an absent key) and
`.error e` a rejected one.  The slash-command handler wraps its whole
body in one `try/catch` whose catch branch answers with a fixed generic
ephemeral message. -/

/-- Errors that can be thrown inside a handler invocation. -/
inductive JsError where
  | storage (msg : String)
  | slackApi (msg : String)
  deriving DecidableEq, Repr

/-- The handler outcomes the embedding distinguishes: an ephemeral JSON
message or the empty 200 response. -/
inductive SlackOut where
  | ephemeralText (s : String)
  | emptyOk
  deriving DecidableEq, Repr

/-- The catch-branch message of the slash-command handler. -/
def genericErrorText : String :=
  ":warning: Something went wrong. Please try again or contact your admin."

/-- Embedding of `getResponses` over a fallible read: the function body
has no `try/catch`, so a rejected `get` propagates unchanged, and only a
fulfilled absent read is replaced by the empty list. -/
def getResponsesE (blobGet : Except JsError (Option (List Resp))) :
    Except JsError (List Resp) :=
  match blobGet with
  | .error e => .error e
  | .ok v => .ok (v.getD [])

/-- Embedding of the `results` subcommand path of the slash-command
handler: look up the survey (absent gives the not-found ephemeral),
read the responses through `getResponses`, post the rendered blocks
(`postResult` is the outcome of that Slack API call; the rendering
itself is pure and cannot throw), and return the empty 200; every error
thrown on the way lands in the one `catch` branch, which answers with
the fixed generic message. -/
def handleResultsE (surveyId : String)
    (surveyGet : Except JsError (Option Survey))
    (respGet : Except JsError (Option (List Resp)))
    (postResult : Except JsError Unit) : SlackOut :=
  let body : Except JsError SlackOut := do
    match ← surveyGet with
    | none => pure (.ephemeralText (":x: Survey `" ++ surveyId ++ "` not found."))
    | some _ => do
      let _ ← getResponsesE respGet
      let _ ← postResult
      pure .emptyOk
  match body with
  | .ok out => out
  | .error _ => .ephemeralText genericErrorText

/-! ### Free-text noninterference relation

The privacy claim about the public-share rendering is stated as a
noninterference property: two response lists that agree on everything a
non-free-text question reads, and whose free-text answers have the same
truthiness (the only bit the count-only rendering consumes), must render
identically. -/

/-- Per-question agreement between two stored answers: free-text
questions only require equal truthiness, every other question requires
equal values. -/
def perQ (q : Question) (x y : Ans) : Prop :=
  if q.type = QType.freeText then jsTruthyAns x = jsTruthyAns y else x = y

/-- Agreement of two responses over a question list. -/
def FtEquiv (qs : List Question) (a b : Resp) : Prop :=
  ∀ j q, qs[j]? = some q → perQ q (a j) (b j)

/-! ## Helper lemmas -/

/-- Left cancellation for string append. -/
theorem string_append_left_cancel (s t u : String) (h : s ++ t = s ++ u) : t = u := by
  apply String.ext
  have hd : s.data ++ t.data = s.data ++ u.data := congrArg String.data h
  exact List.append_cancel_left hd

/-- For an injective hash and a fixed survey, the dedup digest is
injective in the user id. -/
theorem dedupDigest_inj (sha256 : String → String) (hinj : Function.Injective sha256)
    (surveyId u v : String)
    (h : dedupDigest sha256 surveyId u = dedupDigest sha256 surveyId v) : u = v :=
  string_append_left_cancel (surveyId ++ ":") u v (hinj h)

/-- Unfolding equation for `markUserResponded`. -/
theorem markUserResponded_eq (sha256 : String → String) (surveyId userId : String)
    (set : List String) :
    markUserResponded sha256 surveyId userId set =
      if set.contains (dedupDigest sha256 surveyId userId)
        then (set, false) else (set ++ [dedupDigest sha256 surveyId userId], true) := rfl

/-- Members of a tracking list produced by a fold of marks are either
initial members or digests of marked users. -/
theorem mem_markFold (sha256 : String → String) (surveyId : String) (users : List String) :
    ∀ (s0 : List String) (x : String),
      x ∈ users.foldl (fun s u => (markUserResponded sha256 surveyId u s).1) s0 →
      x ∈ s0 ∨ ∃ u ∈ users, x = dedupDigest sha256 surveyId u := by
  induction users with
  | nil => exact fun s0 x hx => Or.inl hx
  | cons u us ih =>
    intro s0 x hx
    rcases ih _ x hx with h | ⟨v, hv, hd⟩
    · by_cases hc : s0.contains (dedupDigest sha256 surveyId u)
      · simp only [markUserResponded_eq, hc, if_true] at h
        exact Or.inl h
      · simp only [markUserResponded_eq, hc, Bool.false_eq_true, if_false] at h
        rcases List.mem_append.mp h with h1 | h2
        · exact Or.inl h1
        · exact Or.inr ⟨u, List.mem_cons_self u us, List.mem_singleton.mp h2⟩
    · exact Or.inr ⟨v, List.mem_cons_of_mem u hv, hd⟩

/-- The digest is a member of the list returned by `markUserResponded`. -/
theorem mem_markUserResponded (sha256 : String → String) (surveyId userId : String)
    (set : List String) :
    dedupDigest sha256 surveyId userId ∈ (markUserResponded sha256 surveyId userId set).1 := by
  rw [markUserResponded_eq]
  by_cases hc : set.contains (dedupDigest sha256 surveyId userId)
  · simp only [hc, if_true]
    exact List.elem_iff.mp hc
  · simp only [hc, Bool.false_eq_true, if_false]
    exact List.mem_append_right _ (List.mem_singleton.mpr rfl)

/-! ## Claim C2: dedup tracking protocol -/

/-- C2: for a fixed `(surveyId, userId)` executed sequentially,
`hasUserResponded` is false before any mark for that pair (both on the
initial empty tracking list and on any list produced by marking other
users, given an injective hash), true after one `markUserResponded`, and
a second `markUserResponded` is a no-op: it returns the stored list
unchanged and performs no write. -/
theorem dedup_tracking_protocol (sha256 : String → String) (surveyId userId : String)
    (others : List String) (set : List String)
    (hinj : Function.Injective sha256) (hu : userId ∉ others) :
    hasUserResponded sha256 surveyId userId [] = false ∧
    hasUserResponded sha256 surveyId userId (markedSet sha256 surveyId others) = false ∧
    hasUserResponded sha256 surveyId userId (markUserResponded sha256 surveyId userId set).1
      = true ∧
    markUserResponded sha256 surveyId userId (markUserResponded sha256 surveyId userId set).1
      = ((markUserResponded sha256 surveyId userId set).1, false) := by
  have hmem := mem_markUserResponded sha256 surveyId userId set
  refine ⟨rfl, ?_, ?_, ?_⟩
  · have hnotin : dedupDigest sha256 surveyId userId ∉ markedSet sha256 surveyId others := by
      intro hx
      rcases mem_markFold sha256 surveyId others [] _ hx with h | ⟨u, humem, hd⟩
      · simp at h
      · exact hu (dedupDigest_inj sha256 hinj surveyId userId u hd ▸ humem)
    simp only [hasUserResponded]
    simpa [List.elem_iff] using hnotin
  · simp only [hasUserResponded]
    simpa [List.elem_iff] using hmem
  · rw [markUserResponded_eq]
    simp only [List.elem_iff.mpr hmem, if_true]

/-- C2 witness: the protocol at a concrete injective hash, survey and
users. -/
theorem dedup_tracking_protocol_witness :
    hasUserResponded (fun s => s) "s1" "u1" [] = false ∧
    hasUserResponded (fun s => s) "s1" "u1" (markedSet (fun s => s) "s1" ["u2"]) = false ∧
    hasUserResponded (fun s => s) "s1" "u1"
      (markUserResponded (fun s => s) "s1" "u1" ["x"]).1 = true ∧
    markUserResponded (fun s => s) "s1" "u1"
      (markUserResponded (fun s => s) "s1" "u1" ["x"]).1
      = ((markUserResponded (fun s => s) "s1" "u1" ["x"]).1, false) :=
  dedup_tracking_protocol (fun s => s) "s1" "u1" ["u2"] ["x"]
    (fun _ _ h => h) (by decide)

/-! ## Claim C4: shape of the dedup digest -/

/-- C4 counterexample: the digest is not a keyed hash.  Instantiating
the abstract hash primitive with the identity exhibits the hashed
material: the digest of `("s1", "u1")` is literally the public string
`"s1:u1"`, and no key value can present the code's digest as a keyed
digest over the concatenation of the pair. -/
theorem dedupDigest_unkeyed_cex :
    dedupDigest (fun s => s) "s1" "u1" = "s1:u1" ∧
    ¬ ∃ key : String, ∀ surveyId userId : String,
        dedupDigest (fun s => s) surveyId userId = key ++ (surveyId ++ userId) := by
  refine ⟨rfl, ?_⟩
  rintro ⟨key, hk⟩
  have h1 := hk "" ""
  have h2 := hk "a" "b"
  simp only [dedupDigest, String.append_empty, String.empty_append] at h1
  rw [← h1] at h2
  exact absurd h2 (by decide)

/-- C4 amended: the dedup digest is the unkeyed hash of
`surveyId ++ ":" ++ userId` — no secret key or salt enters the hashed
material — and `markUserResponded` stores only that digest: every
element of the stored list after a mark is either an old element or the
digest itself, so the raw user identifier is never stored alongside it. -/
theorem dedupDigest_shape_no_raw_id (sha256 : String → String)
    (surveyId userId : String) (set : List String) :
    dedupDigest sha256 surveyId userId = sha256 (surveyId ++ ":" ++ userId) ∧
    (∀ x ∈ (markUserResponded sha256 surveyId userId set).1,
      x ∈ set ∨ x = dedupDigest sha256 surveyId userId) := by
  refine ⟨rfl, ?_⟩
  intro x hx
  rw [markUserResponded_eq] at hx
  by_cases hc : set.contains (dedupDigest sha256 surveyId userId)
  · simp only [hc, if_true] at hx
    exact Or.inl hx
  · simp only [hc, Bool.false_eq_true, if_false] at hx
    rcases List.mem_append.mp hx with h1 | h2
    · exact Or.inl h1
    · exact Or.inr (List.mem_singleton.mp h2)

/-- C4 amended witness: the stored-element alternative at a concrete
element of the list produced by a concrete mark. -/
theorem dedupDigest_shape_no_raw_id_witness :
    "s1:u1" ∈ ([] : List String) ∨ "s1:u1" = dedupDigest (fun s => s) "s1" "u1" :=
  (dedupDigest_shape_no_raw_id (fun s => s) "s1" "u1" []).2 "s1:u1" (by decide)

/-! ## Claim C3: response counting -/

/-- Invariant of a sequential `addResponse` run: the stored list grows
by exactly the submitted answers, the stored survey's `responseCount`
tracks the stored list's length, and the returned counts are the
successive new lengths. -/
theorem addResponseRun_aux (surveyId : String) (as : List Resp) :
    ∀ (st : StoreState) (l : List Resp) (sv : Survey),
      (st.responses surveyId).getD [] = l →
      st.surveys surveyId = some sv →
      sv.responseCount = l.length →
      ((addResponseRun st surveyId as).1.responses surveyId).getD [] = l ++ as ∧
      ((addResponseRun st surveyId as).1.surveys surveyId).map Survey.responseCount
        = some (l.length + as.length) ∧
      (addResponseRun st surveyId as).2 = List.range' (l.length + 1) as.length := by
  induction as with
  | nil =>
    intro st l sv hr hs hc
    refine ⟨by simpa [addResponseRun] using hr, ?_, rfl⟩
    simp [addResponseRun, hs, hc]
  | cons a as ih =>
    intro st l sv hr hs hc
    have hstep : addResponse st surveyId a =
        ({ surveys := fun k => if k = surveyId
              then some { sv with responseCount := (l ++ [a]).length } else st.surveys k,
           responses := fun k => if k = surveyId then some (l ++ [a]) else st.responses k },
          (l ++ [a]).length) := by
      simp [addResponse, hr, hs]
    have htail := ih
      { surveys := fun k => if k = surveyId
            then some { sv with responseCount := (l ++ [a]).length } else st.surveys k,
        responses := fun k => if k = surveyId then some (l ++ [a]) else st.responses k }
      (l ++ [a]) { sv with responseCount := (l ++ [a]).length }
      (by simp) (by simp) rfl
    rcases htail with ⟨h1, h2, h3⟩
    refine ⟨?_, ?_, ?_⟩
    · show ((addResponseRun (addResponse st surveyId a).1 surveyId as).1.responses
        surveyId).getD [] = l ++ a :: as
      rw [hstep]
      simpa using h1
    · show ((addResponseRun (addResponse st surveyId a).1 surveyId as).1.surveys
        surveyId).map Survey.responseCount = some (l.length + (a :: as).length)
      rw [hstep]
      rw [h2]
      simp [Nat.add_assoc, Nat.add_comm 1 as.length]
    · show (addResponse st surveyId a).2 ::
        (addResponseRun (addResponse st surveyId a).1 surveyId as).2
        = List.range' (l.length + 1) (a :: as).length
      simp only [hstep]
      rw [h3]
      have hlen : (l ++ [a]).length = l.length + 1 := by simp
      rw [hlen]
      rfl

/-- C3: starting from an existing survey with `responseCount = 0` and no
stored responses, a sequential run of `k` `addResponse` calls leaves
`getResponses` with length `k`, leaves the stored survey's
`responseCount` equal to `k`, and the `i`-th call returns `i` (the new
length after its append). -/
theorem addResponse_sequential_counts (st : StoreState) (surveyId : String)
    (sv : Survey) (as : List Resp)
    (hs : st.surveys surveyId = some sv)
    (hc : sv.responseCount = 0)
    (h0 : (st.responses surveyId).getD [] = []) :
    (getResponses (addResponseRun st surveyId as).1 surveyId).length = as.length ∧
    ((addResponseRun st surveyId as).1.surveys surveyId).map Survey.responseCount
      = some as.length ∧
    (addResponseRun st surveyId as).2 = List.range' 1 as.length := by
  have h := addResponseRun_aux surveyId as st [] sv h0 hs (by simpa using hc)
  rcases h with ⟨h1, h2, h3⟩
  refine ⟨?_, by simpa using h2, by simpa using h3⟩
  simp [getResponses, h1]

/-- C3 witness: a concrete two-submission run on a fresh survey. -/
theorem addResponse_sequential_counts_witness :
    (getResponses (addResponseRun
      ⟨fun k => if k = "s1"
          then some { id := "s1", title := "T", questions := [], createdBy := "u",
                      status := "open", responseCount := 0,
                      settings := { showResults := false, shareFreetext := false },
                      createdAt := "" }
          else none,
        fun _ => none⟩ "s1"
      [fun _ => Ans.absent, fun _ => Ans.str "5"]).1 "s1").length = 2 ∧
    ((addResponseRun
      ⟨fun k => if k = "s1"
          then some { id := "s1", title := "T", questions := [], createdBy := "u",
                      status := "open", responseCount := 0,
                      settings := { showResults := false, shareFreetext := false },
                      createdAt := "" }
          else none,
        fun _ => none⟩ "s1"
      [fun _ => Ans.absent, fun _ => Ans.str "5"]).1.surveys "s1").map Survey.responseCount
      = some 2 ∧
    (addResponseRun
      ⟨fun k => if k = "s1"
          then some { id := "s1", title := "T", questions := [], createdBy := "u",
                      status := "open", responseCount := 0,
                      settings := { showResults := false, shareFreetext := false },
                      createdAt := "" }
          else none,
        fun _ => none⟩ "s1"
      [fun _ => Ans.absent, fun _ => Ans.str "5"]).2 = List.range' 1 2 :=
  addResponse_sequential_counts _ "s1" _ _ rfl rfl rfl

/-! ## Claim C10: addResponse with a missing survey record -/

/-- C10: when no survey record exists under `surveyId`, `addResponse`
still appends to the response store and returns the new length, while
the survey namespace is left completely unchanged and no error is
raised; responses under other keys are also untouched. -/
theorem addResponse_missing_survey (st : StoreState) (surveyId : String) (answers : Resp)
    (h : st.surveys surveyId = none) :
    (addResponse st surveyId answers).1.surveys = st.surveys ∧
    (addResponse st surveyId answers).1.responses surveyId
      = some (((st.responses surveyId).getD []) ++ [answers]) ∧
    (∀ k, k ≠ surveyId → (addResponse st surveyId answers).1.responses k = st.responses k) ∧
    (addResponse st surveyId answers).2 = ((st.responses surveyId).getD []).length + 1 := by
  refine ⟨?_, ?_, ?_, ?_⟩
  · simp [addResponse, h]
  · simp [addResponse, h]
  · intro k hk
    simp [addResponse, h, hk]
  · simp [addResponse, h]

/-- C10 witness: a concrete append into an empty store with no survey
record. -/
theorem addResponse_missing_survey_witness :
    (addResponse ⟨fun _ => none, fun _ => none⟩ "s1" (fun _ => Ans.absent)).1.surveys
      = (fun _ => none) ∧
    (addResponse ⟨fun _ => none, fun _ => none⟩ "s1" (fun _ => Ans.absent)).2 = 1 :=
  ⟨(addResponse_missing_survey ⟨fun _ => none, fun _ => none⟩ "s1" (fun _ => Ans.absent)
      rfl).1,
    (addResponse_missing_survey ⟨fun _ => none, fun _ => none⟩ "s1" (fun _ => Ans.absent)
      rfl).2.2.2⟩

/-! ## Claim C9: storage fault propagation -/

/-- C9 counterexample: a storage fault in the `results` path produces
exactly the same generic catch-all ephemeral message as a non-storage
fault (a failed Slack API post), so the caller receives no distinct
StorageUnavailable outcome. -/
theorem storage_fault_not_distinct_cex :
    handleResultsE "s1" (.error (.storage "blob backend unreachable")) (.ok none) (.ok ())
      = .ephemeralText genericErrorText ∧
    handleResultsE "s1"
      (.ok (some { id := "s1", title := "T", questions := [], createdBy := "u",
                   status := "open", responseCount := 0,
                   settings := { showResults := false, shareFreetext := false },
                   createdAt := "" }))
      (.ok none) (.error (.slackApi "post failed"))
      = .ephemeralText genericErrorText := ⟨rfl, rfl⟩

/-- C9 amended: `getResponses` never swallows a storage fault — a
rejected read propagates unchanged and is in particular never rendered
as the empty response list — but the slash-command handler's single
catch branch then maps every thrown error, storage-layer or not, to the
one generic ephemeral warning; no distinct StorageUnavailable outcome is
surfaced. -/
theorem storage_fault_propagation (e : JsError) (surveyId : String)
    (respGet : Except JsError (Option (List Resp)))
    (postResult : Except JsError Unit) (sv : Survey) :
    getResponsesE (.error e) = .error e ∧
    getResponsesE (.error e) ≠ .ok [] ∧
    handleResultsE surveyId (.error e) respGet postResult
      = .ephemeralText genericErrorText ∧
    handleResultsE surveyId (.ok (some sv)) (.error e) postResult
      = .ephemeralText genericErrorText := by
  refine ⟨rfl, by simp [getResponsesE], rfl, rfl⟩

/-! ## Claim C5: CSV export -/

/-- Doubling quotes via `flatMap` agrees with the right fold used by the
spec-side field description. -/
theorem quote_doubling_eq (l : List Char) :
    l.flatMap (fun c => if c = '"' then ['"', '"'] else [c])
      = l.foldr (fun c acc => if c = '"' then '"' :: '"' :: acc else c :: acc) [] := by
  induction l with
  | nil => rfl
  | cons c cs ih =>
    by_cases hc : c = '"'
    · simp [hc, ih]
    · simp [hc, ih]

/-- The code's CSV field rendering agrees with the spec's description
for every answer value. -/
theorem csvField_eq_spec (a : Ans) : csvField a = csvFieldSpec a := by
  cases a with
  | absent => rfl
  | arr l => rfl
  | str s =>
    simp only [csvField, csvFieldSpec, jsEscapeQuotes, quote_doubling_eq]
    by_cases h1 : ',' ∈ s.data <;> by_cases h2 : '"' ∈ s.data <;>
      simp [jsIncludesChar, List.elem_iff, h1, h2]

/-- One CSV row over the enumerated questions agrees with the spec-side
row over the index range. -/
theorem csv_row_eq (qs : List Question) (r : Resp) :
    qs.enum.map (fun p => csvField (r p.1))
      = (List.range qs.length).map (fun i => csvFieldSpec (r i)) := by
  calc qs.enum.map (fun p => csvField (r p.1))
      = (qs.enum.map Prod.fst).map (fun i => csvField (r i)) := by
        rw [List.map_map]; rfl
    _ = (List.range qs.length).map (fun i => csvField (r i)) := by rw [List.enum_map_fst]
    _ = (List.range qs.length).map (fun i => csvFieldSpec (r i)) :=
        List.map_congr_left (fun i _ => csvField_eq_spec (r i))

/-- C5: `buildCsvExport` produces exactly the spec's format — header row
of question labels, one row per response in order, newline-joined with
no trailing newline, array answers quoted and comma-space joined,
strings containing a comma or double-quote quoted with internal quotes
doubled, missing answers empty — and in particular the field value
`He said, "hi"` is emitted as `"He said, ""hi"""`. -/
theorem buildCsvExport_matches_spec (survey : Survey) (responses : List Resp) :
    buildCsvExport survey responses = csvExportSpec survey responses ∧
    csvField (Ans.str "He said, \"hi\"") = "\"He said, \"\"hi\"\"\"" := by
  constructor
  · simp only [buildCsvExport, csvExportSpec]
    apply congrArg (String.intercalate "\n")
    apply congrArg₂ List.cons rfl
    exact List.map_congr_left fun r _ =>
      congrArg (String.intercalate ",") (csv_row_eq survey.questions r)
  · decide

/-! ## Claim C6: scale aggregation -/

/-- Evaluation of `parseFloat` on the digit string `"5"`. -/
theorem jsParseFloat_lit5 : jsParseFloat "5" = some 5 := by
  simp +decide [jsParseFloat, digitsToNat, fracVal]

/-- Evaluation of `parseFloat` on the digit string `"4"`. -/
theorem jsParseFloat_lit4 : jsParseFloat "4" = some 4 := by
  simp +decide [jsParseFloat, digitsToNat, fracVal]

/-- Evaluation of `parseFloat` on the digit string `"3"`. -/
theorem jsParseFloat_lit3 : jsParseFloat "3" = some 3 := by
  simp +decide [jsParseFloat, digitsToNat, fracVal]

/-- Evaluation of `parseFloat` on the digit string `"0"`. -/
theorem jsParseFloat_lit0 : jsParseFloat "0" = some 0 := by
  simp +decide [jsParseFloat, digitsToNat, fracVal]

/-- The `filter(Boolean)`-then-extract pipeline of the scale branch
drops exactly the `NaN` (missing or non-numeric) and zero entries. -/
theorem filter_boolean_foldr (l : List (Option ℚ)) :
    (l.filter jsNumTruthy).filterMap id
      = l.foldr (fun o acc => match o with
          | some q => if q = 0 then acc else q :: acc
          | none => acc) [] := by
  induction l with
  | nil => rfl
  | cons o cs ih =>
    cases o with
    | none => simpa [jsNumTruthy] using ih
    | some q =>
      by_cases hq : q = 0
      · simp [jsNumTruthy, hq, ih]
      · simp [jsNumTruthy, hq, ih]

/-- Filtering on equality counts occurrences. -/
theorem filter_count_eq (vs : List ℚ) (n : ℚ) :
    (vs.filter (fun v => v = n)).length = vs.count n := by
  rw [List.count_eq_countP, List.countP_eq_length_filter]
  congr 1

/-- C6: the scale aggregation collects the parsed numeric answers after
dropping every missing, non-numeric or exactly-zero answer, its
distribution buckets count values exactly equal to 1..5, and on the
answers `[5,5,4,3,0]` the zero is filtered out, the mean of the
remaining four is 4.25, the rendered rounded value is 4.3, and the
distribution is 2 fives, 1 four, 1 three. -/
theorem scale_aggregation_claim :
    (∀ (responses : List Resp) (i : Nat),
      scaleValues responses i
        = (responses.map (fun r => scaleParsedAns (r i))).foldr
            (fun o acc => match o with
              | some q => if q = 0 then acc else q :: acc
              | none => acc) []) ∧
    (∀ vs : List ℚ,
      scaleDist vs = [vs.count 1, vs.count 2, vs.count 3, vs.count 4, vs.count 5]) ∧
    scaleValues
      [fun _ => Ans.str "5", fun _ => Ans.str "5", fun _ => Ans.str "4",
        fun _ => Ans.str "3", fun _ => Ans.str "0"] 0 = [5, 5, 4, 3] ∧
    scaleMean [5, 5, 4, 3] = 17 / 4 ∧
    scaleRounded [5, 5, 4, 3] = 43 / 10 ∧
    scaleDist [5, 5, 4, 3] = [0, 0, 1, 1, 2] := by
  refine ⟨?_, ?_, ?_, ?_, ?_, ?_⟩
  · exact fun responses i => filter_boolean_foldr _
  · intro vs
    simp [scaleDist, filter_count_eq]
  · simp +decide [scaleValues, scaleParsedAns, jsParseFloat_lit5, jsParseFloat_lit4,
      jsParseFloat_lit3, jsParseFloat_lit0, jsNumTruthy, List.filter, List.filterMap]
  · norm_num [scaleMean]
  · norm_num [scaleRounded, scaleMean, jsMathRound]
  · norm_num [scaleDist, List.filter]

/-! ## Claim C8: option-line parsing -/

/-- The left fold building `optionsMap` looks up as the last parsed
entry for the requested number: later lines overwrite earlier ones. -/
theorem optionsMap_fold_find (n : Nat) (lines : List String) :
    ∀ (m : Nat → Option (List String)),
      (lines.foldl (fun m line =>
        match parseOptLine line with
        | some e => fun k => if k = e.1 then some e.2 else m k
        | none => m) m) n
      = match (lines.filterMap parseOptLine).reverse.find? (fun p => p.1 == n) with
        | some p => some p.2
        | none => m n := by
  induction lines with
  | nil => intro m; rfl
  | cons line ls ih =>
    intro m
    cases hp : parseOptLine line with
    | none =>
      simp only [List.foldl_cons, hp]
      rw [ih]
      simp [List.filterMap_cons, hp]
    | some e =>
      simp only [List.foldl_cons, hp]
      rw [ih]
      simp only [List.filterMap_cons, hp, List.reverse_cons, List.find?_append]
      cases hf : (ls.filterMap parseOptLine).reverse.find? (fun p => p.1 == n) with
      | some p => simp [hf, Option.or]
      | none =>
        by_cases he : e.1 = n
        · simp [hf, Option.or, List.find?, he]
        · have hne : (e.1 == n) = false := by simpa using he
          have hne2 : ¬ n = e.1 := fun h => he h.symm
          simp [hf, Option.or, List.find?, hne, hne2]

/-- A multi-select question at 0-based position `i` carries exactly the
options mapped to its 1-based number, with the placeholder fallback. -/
theorem parseQuestions_multiSelect_options (rawQuestions rawOptions : String)
    (i : Nat) (q : Question)
    (hq : (parseQuestions rawQuestions rawOptions)[i]? = some q)
    (hms : q.type = QType.multiSelect) :
    q.options = some ((optionsMap rawOptions (i + 1)).getD defaultOptions) := by
  simp only [parseQuestions, List.getElem?_map, List.getElem?_enum] at hq
  cases hl : (nonBlankTrimmedLines rawQuestions)[i]? with
  | none => rw [hl] at hq; simp at hq
  | some line =>
    rw [hl] at hq
    simp only [Option.map_some'] at hq
    by_cases h1 : containsMarkerCI msMarker line.data
    · rw [if_pos h1] at hq
      cases Option.some.inj hq
      rfl
    · rw [if_neg h1] at hq
      by_cases h2 : containsMarkerCI ftMarker line.data
      · rw [if_pos h2] at hq
        cases Option.some.inj hq
        simp at hms
      · rw [if_neg h2] at hq
        cases Option.some.inj hq
        simp at hms

/-- C8: option lines of the form `Q<N>: opt1, opt2, ...`
(case-insensitive prefix) map the number `N` to the ordered trimmed
option strings with later lines overwriting earlier ones; every
multi-select question at 1-based position `n` receives exactly the
options mapped to `n`, and exactly the three default placeholders when
no mapping exists. -/
theorem parseQuestions_options_claim :
    (∀ (rawOptions : String) (n : Nat),
      optionsMap rawOptions n
        = match (parsedOptionEntries rawOptions).reverse.find? (fun p => p.1 == n) with
          | some p => some p.2
          | none => none) ∧
    (∀ (rawQuestions rawOptions : String) (i : Nat) (q : Question),
      (parseQuestions rawQuestions rawOptions)[i]? = some q →
      q.type = QType.multiSelect →
      q.options = some ((optionsMap rawOptions (i + 1)).getD defaultOptions)) ∧
    parseOptLine "q2:  Social events , Mentorship,Speaker series"
      = some (2, ["Social events", "Mentorship", "Speaker series"]) ∧
    optionsMap "Q1: a, b\nQ1: c" 1 = some ["c"] ∧
    optionsMap "" 1 = none := by
  refine ⟨?_, parseQuestions_multiSelect_options, by decide, by decide, by decide⟩
  intro rawOptions n
  exact optionsMap_fold_find n (nonBlankTrimmedLines rawOptions) (fun _ => none)

/-- C8 witness: a concrete multi-select question picking up its parsed
options. -/
theorem parseQuestions_options_claim_witness :
    ({ label := "A", type := QType.multiSelect, options := some ["x", "y"] } : Question).options
      = some ((optionsMap "Q1: x, y" 1).getD defaultOptions) :=
  parseQuestions_options_claim.2.1 "A (multi-select)" "Q1: x, y" 0
    { label := "A", type := QType.multiSelect, options := some ["x", "y"] }
    (by decide) rfl

/-! ## Claim C7: multi-select aggregation -/

/-- Membership through the descending-count insertion step. -/
theorem mem_insertDescCount (x y : String × Nat) (l : List (String × Nat)) :
    y ∈ insertDescCount x l ↔ y = x ∨ y ∈ l := by
  induction l with
  | nil => simp [insertDescCount]
  | cons a as ih =>
    by_cases h : a.2 ≤ x.2
    · simp only [insertDescCount, h, if_true]
      simp
    · simp only [insertDescCount, h, if_false]
      simp [ih]
      tauto

/-- Membership through the descending-count insertion sort. -/
theorem mem_sortDescCount (y : String × Nat) (l : List (String × Nat)) :
    y ∈ sortDescCount l ↔ y ∈ l := by
  induction l with
  | nil => simp [sortDescCount]
  | cons a as ih => simp [sortDescCount, mem_insertDescCount, ih]

/-- Inserting preserves the descending-count ordering. -/
theorem pairwise_insertDescCount (x : String × Nat) (l : List (String × Nat))
    (hl : l.Pairwise (fun a b => b.2 ≤ a.2)) :
    (insertDescCount x l).Pairwise (fun a b => b.2 ≤ a.2) := by
  induction l with
  | nil => simp [insertDescCount]
  | cons a as ih =>
    rcases List.pairwise_cons.mp hl with ⟨ha, has⟩
    by_cases h : a.2 ≤ x.2
    · simp only [insertDescCount, h, if_true]
      refine List.pairwise_cons.mpr ⟨?_, hl⟩
      intro y hy
      rcases List.mem_cons.mp hy with rfl | hy2
      · exact h
      · exact le_trans (ha y hy2) h
    · simp only [insertDescCount, h, if_false]
      refine List.pairwise_cons.mpr ⟨?_, ih has⟩
      intro y hy
      rcases (mem_insertDescCount x y as).mp hy with rfl | hy2
      · exact le_of_lt (not_le.mp h)
      · exact ha y hy2

/-- The sorted multi-select entries are in descending count order. -/
theorem sortDescCount_pairwise (l : List (String × Nat)) :
    (sortDescCount l).Pairwise (fun a b => b.2 ≤ a.2) := by
  induction l with
  | nil => simp [sortDescCount]
  | cons a as ih => exact pairwise_insertDescCount a _ ih

/-- Stability of the insertion step on each count class. -/
theorem filter_insertDescCount (x : String × Nat) (l : List (String × Nat)) (c : Nat) :
    (insertDescCount x l).filter (fun e => e.2 = c)
      = if x.2 = c then x :: l.filter (fun e => e.2 = c)
        else l.filter (fun e => e.2 = c) := by
  induction l with
  | nil => by_cases hx : x.2 = c <;> simp [insertDescCount, hx]
  | cons a as ih =>
    by_cases h : a.2 ≤ x.2
    · rw [show insertDescCount x (a :: as) = x :: a :: as from by
        simp [insertDescCount, h]]
      by_cases hx : x.2 = c <;> simp [List.filter_cons, hx]
    · rw [show insertDescCount x (a :: as) = a :: insertDescCount x as from by
        simp [insertDescCount, h]]
      rw [List.filter_cons, List.filter_cons]
      by_cases hx : x.2 = c
      · have ha : ¬ a.2 = c := by omega
        rw [ih]
        simp [hx, ha]
      · rw [ih]
        simp [hx]

/-- Stability of the sort: the entries of each count class keep their
original relative order. -/
theorem filter_sortDescCount (l : List (String × Nat)) (c : Nat) :
    (sortDescCount l).filter (fun e => e.2 = c) = l.filter (fun e => e.2 = c) := by
  induction l with
  | nil => rfl
  | cons a as ih =>
    by_cases ha : a.2 = c <;>
      simp [sortDescCount, filter_insertDescCount, ha, ih, List.filter_cons]

/-- Keys of a bumped counts object come from the old keys or the bumped
key. -/
theorem mem_keys_bump (acc : List (String × Nat)) (s k : String)
    (h : k ∈ (bump acc s).map Prod.fst) : k ∈ acc.map Prod.fst ∨ k = s := by
  induction acc with
  | nil =>
    simp only [bump, List.map_cons, List.map_nil, List.mem_singleton] at h
    exact Or.inr h
  | cons e rest ih =>
    by_cases he : e.1 = s
    · rw [show bump (e :: rest) s = (e.1, e.2 + 1) :: rest from by simp [bump, he]] at h
      rw [List.map_cons] at h ⊢
      exact Or.inl h
    · rw [show bump (e :: rest) s = e :: bump rest s from by simp [bump, he]] at h
      rw [List.map_cons] at h ⊢
      rcases List.mem_cons.mp h with h1 | h1
      · exact Or.inl (List.mem_cons.mpr (Or.inl h1))
      · rcases ih h1 with h2 | h2
        · exact Or.inl (List.mem_cons.mpr (Or.inr h2))
        · exact Or.inr h2

/-- Bumping preserves distinctness of the keys. -/
theorem keys_nodup_bump (acc : List (String × Nat)) (s : String)
    (h : (acc.map Prod.fst).Nodup) : ((bump acc s).map Prod.fst).Nodup := by
  induction acc with
  | nil => simp [bump]
  | cons e rest ih =>
    rw [List.map_cons] at h
    have he : e.1 ∉ List.map Prod.fst rest := (List.nodup_cons.mp h).1
    have hrest : (List.map Prod.fst rest).Nodup := (List.nodup_cons.mp h).2
    by_cases hes : e.1 = s
    · rw [show bump (e :: rest) s = (e.1, e.2 + 1) :: rest from by simp [bump, hes]]
      rw [List.map_cons]
      exact List.nodup_cons.mpr ⟨he, hrest⟩
    · rw [show bump (e :: rest) s = e :: bump rest s from by simp [bump, hes]]
      rw [List.map_cons]
      refine List.nodup_cons.mpr ⟨?_, ih hrest⟩
      intro hk
      rcases mem_keys_bump rest s e.1 hk with h1 | h1
      · exact he h1
      · exact hes h1

/-- The counts object has distinct keys. -/
theorem keys_buildCounts_nodup (sels : List String) :
    ((buildCounts sels).map Prod.fst).Nodup := by
  suffices haux : ∀ acc, (acc.map Prod.fst).Nodup →
      (((sels.foldl bump acc)).map Prod.fst).Nodup by
    exact haux [] (by simp)
  induction sels with
  | nil => exact fun acc h => h
  | cons s rest ih => exact fun acc h => ih _ (keys_nodup_bump acc s h)

/-- Keys reached by folding bumps come from the old keys or the
processed selections. -/
theorem mem_keys_bumpFold (sels : List String) :
    ∀ (acc : List (String × Nat)) (k : String),
      k ∈ ((sels.foldl bump acc).map Prod.fst) → k ∈ acc.map Prod.fst ∨ k ∈ sels := by
  induction sels with
  | nil => exact fun acc k h => Or.inl h
  | cons s rest ih =>
    intro acc k h
    rcases ih (bump acc s) k h with h3 | h3
    · rcases mem_keys_bump acc s k h3 with h4 | h4
      · exact Or.inl h4
      · exact Or.inr (by simp [h4])
    · exact Or.inr (List.mem_cons_of_mem s h3)

/-- Every key of the counts object is one of the selections. -/
theorem mem_keys_buildCounts (sels : List String) (k : String)
    (h : k ∈ (buildCounts sels).map Prod.fst) : k ∈ sels := by
  rcases mem_keys_bumpFold sels [] k h with h1 | h1
  · simp at h1
  · exact h1

/-- With distinct keys, `find?` at an entry's own key returns the
entry. -/
theorem find_self_of_nodup (acc : List (String × Nat)) (e : String × Nat)
    (hnd : (acc.map Prod.fst).Nodup) (he : e ∈ acc) :
    acc.find? (fun x => x.1 == e.1) = some e := by
  induction acc with
  | nil => simp at he
  | cons a rest ih =>
    rw [List.map_cons] at hnd
    have hnd2 := List.nodup_cons.mp hnd
    rcases List.mem_cons.mp he with rfl | hmem
    · simp [List.find?]
    · have hne : (a.1 == e.1) = false := by
        simp only [beq_eq_false_iff_ne, ne_eq]
        intro hh
        exact hnd2.1 (hh ▸ List.mem_map.mpr ⟨e, hmem, rfl⟩)
      rw [List.find?]
      rw [hne]
      exact ih hnd2.2 hmem

/-- Bumping a key increments its looked-up count and leaves other keys
unchanged. -/
theorem countVal_bump (acc : List (String × Nat)) (s k : String) :
    countVal (bump acc s) k = if k = s then countVal acc k + 1 else countVal acc k := by
  induction acc with
  | nil =>
    by_cases h : k = s
    · have hb : (s == k) = true := by simpa using h.symm
      simp [bump, countVal, List.find?, hb, h]
    · have hb : (s == k) = false := by
        simp only [beq_eq_false_iff_ne, ne_eq]
        exact fun hh => h hh.symm
      simp [bump, countVal, List.find?, hb, h]
  | cons e rest ih =>
    by_cases hes : e.1 = s
    · rw [show bump (e :: rest) s = (e.1, e.2 + 1) :: rest from by simp [bump, hes]]
      by_cases hek : e.1 = k
      · have hb : (e.1 == k) = true := by simpa using hek
        have hbs : (e.1 == s) = true := by simpa using hes
        have hks : k = s := by rw [← hek, hes]
        simp [countVal, List.find?, hb, hbs, hks]
      · have hb : (e.1 == k) = false := by simpa using hek
        have hks : ¬ k = s := fun hh => hek (by rw [hes, hh])
        simp [countVal, List.find?, hb, hks]
    · rw [show bump (e :: rest) s = e :: bump rest s from by simp [bump, hes]]
      by_cases hek : e.1 = k
      · have hb : (e.1 == k) = true := by simpa using hek
        have hks : ¬ k = s := fun hh => hes (by rw [hek, hh])
        simp [countVal, List.find?, hb, hks]
      · have hb : (e.1 == k) = false := by simpa using hek
        simp only [countVal, List.find?, hb] at ih ⊢
        exact ih

/-- Folding bumps accumulates exactly the occurrence counts. -/
theorem countVal_bumpFold (sels : List String) :
    ∀ (acc : List (String × Nat)) (k : String),
      countVal (sels.foldl bump acc) k = countVal acc k + sels.count k := by
  induction sels with
  | nil => intro acc k; simp
  | cons s rest ih =>
    intro acc k
    rw [List.foldl_cons, ih, countVal_bump, List.count_cons]
    by_cases h : k = s
    · have hb : (k == s) = true := by simpa using h
      simp [h, hb]
      omega
    · have hb : (k == s) = false := by simpa using h
      have hsk : ¬ s = k := fun hh => h hh.symm
      simp [h, hb, hsk]

/-- Every entry of the counts object records the occurrence count of
its key among the selections. -/
theorem buildCounts_value (sels : List String) (e : String × Nat)
    (he : e ∈ buildCounts sels) : e.2 = sels.count e.1 := by
  have h1 : (buildCounts sels).find? (fun x => x.1 == e.1) = some e :=
    find_self_of_nodup _ e (keys_buildCounts_nodup sels) he
  have h2 : countVal (buildCounts sels) e.1 = sels.count e.1 := by
    have h3 := countVal_bumpFold sels [] e.1
    simpa [buildCounts, countVal] using h3
  rw [countVal, h1] at h2
  simpa using h2

/-- Membership through the ascending numeric-key insertion. -/
theorem mem_insertAscNat (x y : Nat × String × Nat) (l : List (Nat × String × Nat)) :
    y ∈ insertAscNat x l ↔ y = x ∨ y ∈ l := by
  induction l with
  | nil => simp [insertAscNat]
  | cons a as ih =>
    by_cases h : x.1 < a.1
    · simp only [insertAscNat, h, if_true]
      simp
    · simp only [insertAscNat, h, if_false]
      simp [ih]
      tauto

/-- Membership through the ascending numeric-key insertion sort. -/
theorem mem_sortAscNat (y : Nat × String × Nat) (l : List (Nat × String × Nat)) :
    y ∈ sortAscNat l ↔ y ∈ l := by
  induction l with
  | nil => simp [sortAscNat]
  | cons a as ih => simp [sortAscNat, mem_insertAscNat, ih]

/-- The `Object.entries` enumeration only permutes the entries. -/
theorem mem_jsObjectEntries (assoc : List (String × Nat)) (e : String × Nat)
    (h : e ∈ jsObjectEntries assoc) : e ∈ assoc := by
  simp only [jsObjectEntries] at h
  rcases List.mem_append.mp h with h1 | h2
  · rcases List.mem_map.mp h1 with ⟨t, ht, rfl⟩
    have ht2 := (mem_sortAscNat t _).mp ht
    rcases List.mem_filterMap.mp ht2 with ⟨a, ha, hfa⟩
    cases hj : jsArrayIndex a.1 with
    | none => rw [hj] at hfa; simp at hfa
    | some n =>
      rw [hj] at hfa
      simp only [Option.map_some', Option.some.injEq] at hfa
      rw [← hfa]
      exact ha
  · exact (List.mem_filter.mp h2).1

/-- When no key is a canonical array index, `Object.entries` enumerates
in property creation order. -/
theorem jsObjectEntries_id (assoc : List (String × Nat))
    (h : ∀ e ∈ assoc, jsArrayIndex e.1 = none) : jsObjectEntries assoc = assoc := by
  simp only [jsObjectEntries]
  have h1 : assoc.filterMap (fun e => (jsArrayIndex e.1).map (fun n => (n, e))) = [] := by
    rw [List.filterMap_eq_nil_iff]
    intro e he
    rw [h e he]
    rfl
  rw [h1]
  have h2 : assoc.filter (fun e => (jsArrayIndex e.1).isNone) = assoc :=
    List.filter_eq_self.mpr (fun e he => by simp [h e he])
  simp [sortAscNat, h2]

/-- C7 amended: multi-select aggregation counts the frequency of each
distinct selected option string (entry value = occurrence count among
the flattened selections), sorts entries in descending order of count,
breaking ties stably in `Object.entries` enumeration order — which is
exactly first-seen order whenever no option string is a canonical array
index, as hypothesised here — and reports `round(count/total*100)` with
total the number of responses; on 2 responses selecting A and B plus 1
selecting A, option A has count 3 (100%) and sorts before B with count 2
(67%). -/
theorem multiSelect_aggregation (responses : List Resp) (i : Nat)
    (hni : ∀ s ∈ allSelections responses i, jsArrayIndex s = none) :
    (multiSelectEntries responses i).Pairwise (fun a b => b.2 ≤ a.2) ∧
    (∀ e ∈ multiSelectEntries responses i,
      e.2 = (allSelections responses i).count e.1) ∧
    multiSelectEntries responses i
      = sortDescCount (buildCounts (allSelections responses i)) ∧
    (∀ c, (multiSelectEntries responses i).filter (fun e => e.2 = c)
        = (buildCounts (allSelections responses i)).filter (fun e => e.2 = c)) ∧
    multiSelectEntries
      [fun _ => Ans.arr ["A", "B"], fun _ => Ans.arr ["A", "B"], fun _ => Ans.arr ["A"]] 0
      = [("A", 3), ("B", 2)] ∧
    pctOf 3 3 = 100 ∧ pctOf 2 3 = 67 := by
  have hid : jsObjectEntries (buildCounts (allSelections responses i))
      = buildCounts (allSelections responses i) :=
    jsObjectEntries_id _ (fun e he =>
      hni e.1 (mem_keys_buildCounts _ _ (List.mem_map.mpr ⟨e, he, rfl⟩)))
  refine ⟨sortDescCount_pairwise _, ?_, ?_, ?_, by decide,
    by norm_num [pctOf, jsMathRound], by norm_num [pctOf, jsMathRound]⟩
  · intro e he
    exact buildCounts_value _ e (mem_jsObjectEntries _ e ((mem_sortDescCount e _).mp he))
  · show sortDescCount (jsObjectEntries (buildCounts (allSelections responses i))) = _
    rw [hid]
  · intro c
    show (sortDescCount (jsObjectEntries (buildCounts (allSelections responses i)))).filter _
      = _
    rw [hid, filter_sortDescCount]

/-- C7 witness: the amended aggregation applied at the example input,
whose option strings are not canonical array indices. -/
theorem multiSelect_aggregation_witness :
    multiSelectEntries
      [fun _ => Ans.arr ["A", "B"], fun _ => Ans.arr ["A", "B"], fun _ => Ans.arr ["A"]] 0
      = sortDescCount (buildCounts (allSelections
          [fun _ => Ans.arr ["A", "B"], fun _ => Ans.arr ["A", "B"], fun _ => Ans.arr ["A"]]
          0)) :=
  (multiSelect_aggregation
    [fun _ => Ans.arr ["A", "B"], fun _ => Ans.arr ["A", "B"], fun _ => Ans.arr ["A"]] 0
    (by decide)).2.2.1

/-- C7 counterexample: on the claim's own example input — 2 responses
selecting A and B and 1 selecting A — the code yields A count 3 (100%)
and B count 2, not the claimed A count 2 (67%) and B count 1 (33%); and
for canonical-integer option strings the tie order is `Object.entries`
order, not first-seen order: one response selecting options 2 then 1
yields entries 1 before 2, differing from the stable first-seen sort. -/
theorem multiSelect_claim_cex :
    multiSelectEntries
      [fun _ => Ans.arr ["A", "B"], fun _ => Ans.arr ["A", "B"], fun _ => Ans.arr ["A"]] 0
      = [("A", 3), ("B", 2)] ∧
    multiSelectEntries
      [fun _ => Ans.arr ["A", "B"], fun _ => Ans.arr ["A", "B"], fun _ => Ans.arr ["A"]] 0
      ≠ [("A", 2), ("B", 1)] ∧
    pctOf 3 3 = 100 ∧ pctOf 3 3 ≠ 67 ∧
    multiSelectEntries [fun _ => Ans.arr ["2", "1"]] 0 = [("1", 1), ("2", 1)] ∧
    multiSelectEntries [fun _ => Ans.arr ["2", "1"]] 0
      ≠ sortDescCount (buildCounts (allSelections [fun _ => Ans.arr ["2", "1"]] 0)) := by
  refine ⟨by decide, by decide, ?_, ?_, by decide, by decide⟩
  · norm_num [pctOf, jsMathRound]
  · norm_num [pctOf, jsMathRound]

/-! ## Claim C1: free-text privacy in the public-share rendering -/

/-- Pointwise-equal images give equal maps, through a `Forall₂`
relation. -/
theorem forall2_map_eq {α β γ : Type} (f : α → γ) (g : β → γ) :
    ∀ (l1 : List α) (l2 : List β),
      List.Forall₂ (fun a b => f a = g b) l1 l2 → l1.map f = l2.map g := by
  intro l1 l2 h
  induction h with
  | nil => rfl
  | cons hab _ ih => simp [hab, ih]

/-- Pointwise-equal images give equal flat maps, through a `Forall₂`
relation. -/
theorem forall2_flatMap_eq {α β γ : Type} (f : α → List γ) (g : β → List γ) :
    ∀ (l1 : List α) (l2 : List β),
      List.Forall₂ (fun a b => f a = g b) l1 l2 → l1.flatMap f = l2.flatMap g := by
  intro l1 l2 h
  induction h with
  | nil => rfl
  | cons hab _ ih => simp [List.flatMap_cons, hab, ih]

/-- Pointwise-equal filter bits give equal filtered lengths, through a
`Forall₂` relation. -/
theorem forall2_filter_length_eq {α β γ : Type} (f : α → γ) (g : β → γ) (p : γ → Bool) :
    ∀ (l1 : List α) (l2 : List β),
      List.Forall₂ (fun a b => p (f a) = p (g b)) l1 l2 →
      ((l1.map f).filter p).length = ((l2.map g).filter p).length := by
  intro l1 l2 h
  induction h with
  | nil => rfl
  | cons hab _ ih =>
    simp only [List.map_cons, List.filter_cons, hab]
    cases hpb : p (g _) <;> simp [ih]

/-- Noninterference of one question block in the public-share context:
related responses render the same block. -/
theorem questionBlock_ni (survey : Survey) (r1 r2 : List Resp) (i : Nat) (q : Question)
    (hlen : r1.length = r2.length)
    (h : List.Forall₂ (fun a b => perQ q (a i) (b i)) r1 r2) :
    questionBlock survey r1 ⟨false, true⟩ i q
      = questionBlock survey r2 ⟨false, true⟩ i q := by
  cases hq : q.type with
  | scale =>
    have hmap : r1.map (fun r => scaleParsedAns (r i))
        = r2.map (fun r => scaleParsedAns (r i)) := by
      apply forall2_map_eq
      refine h.imp ?_
      intro a b hab
      have hab2 : a i = b i := by simpa [perQ, hq] using hab
      rw [hab2]
    have hvals : scaleValues r1 i = scaleValues r2 i := by
      unfold scaleValues
      rw [hmap]
    simp [questionBlock, hq, hvals]
  | multiSelect =>
    have hsel : allSelections r1 i = allSelections r2 i := by
      apply forall2_flatMap_eq
      refine h.imp ?_
      intro a b hab
      have hab2 : a i = b i := by simpa [perQ, hq] using hab
      rw [hab2]
    simp [questionBlock, hq, msBlockText, multiSelectEntries, hsel, hlen]
  | freeText =>
    have hcount : (freeTexts r1 i).length = (freeTexts r2 i).length := by
      unfold freeTexts
      apply forall2_filter_length_eq
      refine h.imp ?_
      intro a b hab
      simpa [perQ, hq] using hab
    simp [questionBlock, hq, ftBlockText, hcount]

/-- Noninterference of the whole per-question loop in the public-share
context. -/
theorem questionBlocks_ni (survey : Survey) (r1 r2 : List Resp)
    (hlen : r1.length = r2.length) (qs : List Question) :
    ∀ (i : Nat),
      (∀ j q, qs[j]? = some q →
        List.Forall₂ (fun a b => perQ q (a (i + j)) (b (i + j))) r1 r2) →
      questionBlocks survey r1 ⟨false, true⟩ i qs
        = questionBlocks survey r2 ⟨false, true⟩ i qs := by
  induction qs with
  | nil => intro i _; rfl
  | cons q rest ih =>
    intro i h
    have h0 := h 0 q (by simp)
    simp only [Nat.add_zero] at h0
    simp only [questionBlocks]
    rw [questionBlock_ni survey r1 r2 i q hlen h0]
    rw [ih (i + 1) (fun j q2 hj => by
      have h2 := h (j + 1) q2 (by simpa using hj)
      have heq : i + (j + 1) = i + 1 + j := by omega
      exact heq ▸ h2)]

/-- C1: rendering results in the public-share context
`(isAdmin := false, isShare := true)` never emits the verbatim content
of any free-text answer: the output is unchanged under any replacement
of the free-text answer contents that preserves their truthiness (so
only the count can influence it), and each free-text question renders
exactly the count-only section, regardless of the `shareFreetext`
setting. -/
theorem share_view_freetext_private (survey : Survey) (r1 r2 : List Resp)
    (hrel : List.Forall₂ (FtEquiv survey.questions) r1 r2) :
    buildResultsBlocks survey r1 ⟨false, true⟩
      = buildResultsBlocks survey r2 ⟨false, true⟩ ∧
    (∀ i q, survey.questions[i]? = some q → q.type = QType.freeText →
      questionBlock survey r1 ⟨false, true⟩ i q
        = Block.section ("*" ++ q.label ++ "*\n_"
            ++ toString (freeTexts r1 i).length
            ++ " free-text responses (visible to survey creator only)_")) := by
  have hlen := hrel.length_eq
  constructor
  · have hheader : headerText survey r1 = headerText survey r2 := by
      unfold headerText
      rw [hlen]
    have hblocks := questionBlocks_ni survey r1 r2 hlen survey.questions 0
      (fun j q hj => by
        have h2 := hrel.imp (fun a b hab => hab j q hj)
        simpa using h2)
    unfold buildResultsBlocks
    rw [hlen, hheader, hblocks]
  · intro i q _ hft
    simp [questionBlock, hft, ftBlockText]

/-- C1 witness: the public-share rendering of a survey with
`shareFreetext` enabled is identical for two different secret free-text
answers. -/
theorem share_view_freetext_private_witness :
    buildResultsBlocks
      { id := "s1", title := "T",
        questions := [{ label := "FT", type := QType.freeText, options := none }],
        createdBy := "u", status := "open", responseCount := 1,
        settings := { showResults := true, shareFreetext := true }, createdAt := "" }
      [fun _ => Ans.str "the secret feedback"] ⟨false, true⟩
      = buildResultsBlocks
      { id := "s1", title := "T",
        questions := [{ label := "FT", type := QType.freeText, options := none }],
        createdBy := "u", status := "open", responseCount := 1,
        settings := { showResults := true, shareFreetext := true }, createdAt := "" }
      [fun _ => Ans.str "different text"] ⟨false, true⟩ :=
  (share_view_freetext_private _ _ _
    (List.Forall₂.cons
      (fun j q hj => by
        cases j with
        | zero =>
          simp only [List.getElem?_cons_zero, Option.some.injEq] at hj
          subst hj
          simp +decide [perQ, jsTruthyAns]
        | succ j => simp at hj)
      List.Forall₂.nil)).1

end Pulse
